import Mathlib

/-
  Verification of the MusicBot media/annotation core (jdamboeck/MusicBotNewFork).

  Shallow embedding notes:
  - JavaScript strings that are inspected character by character (comment
    texts, display truncation) are modeled as `List Char` (`JsStr`); string
    values that are only compared or concatenated wholesale (keys, ids,
    URLs used as join keys, command-line arguments) stay `String`.
  - `Map` objects keyed by strings are modeled as functions
    `String → Option _`; `Date.now()` is an explicit `Int` parameter.
  - `setTimeout`/`clearTimeout` are modeled by a pool of timer ids:
    `liveTimers : Nat → Bool` says which scheduled deliveries may still
    fire; `clearTimeout` sets the flag to `false`; a delivery can fire
    only while its flag is `true`.  Fresh ids are drawn from a counter.
  - JavaScript truthiness of strings (empty string is falsy) is modeled
    explicitly where the code relies on it (`a || b`, `if (token)`).
  - `Array.prototype.sort` (stable since ES2019) is modeled as a stable
    top-down merge sort `jsSort` over the comparator translated verbatim.
-/

/-! ## Character-list strings -/

abbrev JsStr := List Char

/-- Whitespace test used by the model of `String.prototype.trim` (ASCII subset). -/
def isJsSpace (c : Char) : Bool :=
  c = ' ' || c = '\t' || c = '\n' || c = '\r' || c = '\x0b' || c = '\x0c'

/-- Model of `text.trim()`: strip whitespace from both ends. -/
def trimChars (s : JsStr) : JsStr :=
  ((s.dropWhile isJsSpace).reverse.dropWhile isJsSpace).reverse

/-- Model of `text.split("\n")` (JavaScript semantics: `"".split` gives `[""]`,
    adjacent separators give empty fields). -/
def splitNl : JsStr → List JsStr
  | [] => [[]]
  | c :: rest =>
    match splitNl rest with
    | [] => [[]]
    | line :: lines =>
      if c = '\n' then [] :: line :: lines else (c :: line) :: lines

/-- `text.startsWith("http://") || text.startsWith("https://")` from
    `truncateText` in src/bot/trackComments.js (and the identical copies in
    src/zen-bot/music/commands/stop.js). -/
def startsWithUrl (s : JsStr) : Bool :=
  "http://".toList.isPrefixOf s || "https://".toList.isPrefixOf s

/-! ## src/bot/trackComments.js — display truncation -/

/-- `MAX_COMMENT_LENGTH` from src/bot/trackComments.js line 12. -/
def MAX_COMMENT_LENGTH : Nat := 200

/-- The three-character ellipsis `"..."` appended by `truncateText`. -/
def ellipsis : JsStr := ['.', '.', '.']

/-- The per-line arm of `truncateText` (the lambda at
    src/bot/trackComments.js lines 29-35). -/
def truncateLine (maxLength : Nat) (line : JsStr) : JsStr :=
  if startsWithUrl line then line
  else if line.length ≤ maxLength then line
  else line.take (maxLength - 3) ++ ellipsis

/-- `truncateText(text, maxLength = MAX_COMMENT_LENGTH)` from
    src/bot/trackComments.js lines 20-41: URLs pass through whole; texts with
    newlines are truncated line by line; otherwise the text is cut to
    `maxLength - 3` characters plus an ellipsis once it exceeds `maxLength`. -/
def truncateText (text : JsStr) (maxLength : Nat) : JsStr :=
  if startsWithUrl text then text
  else if text.contains '\n' then
    List.intercalate ['\n'] ((splitNl text).map (truncateLine maxLength))
  else if text.length ≤ maxLength then text
  else text.take (maxLength - 3) ++ ellipsis

/-- The comment-delivery rendering of the scheduled playback callback
    (src/bot/trackComments.js lines 119-148, identical in the merged
    scheduler of src/zen-bot/music/commands/stop.js lines 463-478):
    split the stored text into lines, separate URL lines from text lines,
    render the author header, the truncated space-joined text lines, and
    the URL lines each on their own line. -/
def renderCommentMessage (userName text : JsStr) : JsStr :=
  let lines := splitNl text
  let textParts := lines.filter (fun l => !startsWithUrl l && !(trimChars l).isEmpty)
  let urlParts := lines.filter (fun l => startsWithUrl l)
  let base := "💬 **".toList ++ userName ++ ":**".toList
  let withText :=
    if !textParts.isEmpty then
      base ++ [' '] ++ truncateText (List.intercalate [' '] textParts) MAX_COMMENT_LENGTH
    else base
  if !urlParts.isEmpty then withText ++ ['\n'] ++ List.intercalate ['\n'] urlParts
  else withText

/-! ## src/po-token-provider.js — PoTokenCache -/

structure CacheEntry where
  value : String
  expiry : Int
deriving DecidableEq

/-- `PoTokenCache` from src/po-token-provider.js lines 109-137.
    The backing `Map` is a function from keys; `ttl` is in milliseconds. -/
structure PoTokenCache where
  cache : String → Option CacheEntry
  ttl : Int

/-- `constructor(ttlHours = 6)`: empty map, `ttl = ttlHours * 60 * 60 * 1000`. -/
def PoTokenCache.init (ttlHours : Int) : PoTokenCache :=
  { cache := fun _ => none, ttl := ttlHours * 60 * 60 * 1000 }

/-- `set(key, value)`: overwrite with `expiry = Date.now() + this.ttl`.
    `now` is the explicit clock. -/
def PoTokenCache.set (c : PoTokenCache) (now : Int) (key value : String) : PoTokenCache :=
  { c with cache := fun k => if k = key then some { value := value, expiry := now + c.ttl } else c.cache k }

/-- `get(key)`: absent on miss; if `Date.now() > expiry` evict and return
    absent; otherwise return the cached value with the state untouched.
    Returns the result together with the post-call cache state. -/
def PoTokenCache.get (c : PoTokenCache) (now : Int) (key : String) : Option String × PoTokenCache :=
  match c.cache key with
  | none => (none, c)
  | some cached =>
    if now > cached.expiry then
      (none, { c with cache := fun k => if k = key then none else c.cache k })
    else
      (some cached.value, c)

/-! ## src/po-token-provider.js — fetchPoToken -/

/-- JavaScript truthiness of a possibly-absent string: `undefined` and the
    empty string are falsy. -/
def jsTruthyStr : Option String → Bool
  | none => false
  | some s => s != ""

/-- One network attempt of `fetchPoToken`, abstracted to the four response
    classes the code branches on (src/po-token-provider.js lines 31-100):
    a network-level error (`req.on("error")`), a non-JSON content type with
    an HTML-looking (`<!DOCTYPE`) body, a body that fails `JSON.parse`, or
    a parsed JSON body with its `poToken` / `po_token` / `error` fields. -/
inductive AttemptOutcome where
  | netError
  | htmlBody
  | badJson
  | jsonBody (poToken : Option String) (po_token : Option String) (error : Option String)
deriving DecidableEq

/-- `json.poToken || json.po_token` (line 56). -/
def tokenField (poToken po_token : Option String) : Option String :=
  if jsTruthyStr poToken then poToken else po_token

/-- Result of a `fetchPoToken` call, instrumented with the number of
    attempts performed and the total retry delay waited. -/
structure FetchTrace where
  result : Option String
  attempts : Nat
  waitedMs : Int
deriving DecidableEq

/-- `attemptFetch(attemptsLeft)` from src/po-token-provider.js lines 31-100.
    `env i` is the outcome of the i-th attempt (0-based); `retryDelay` is the
    fixed delay between attempts.  Network errors, HTML bodies and parse
    failures retry while budget remains (each retry waits `retryDelay`),
    then resolve null; a parsed JSON body resolves immediately: with the
    token when `json.poToken || json.po_token` is truthy, otherwise with
    null (both the explicit `json.error` rejection and the missing-token
    case), never retrying. -/
def attemptFetch (env : Nat → AttemptOutcome) (retryDelay : Int) :
    Nat → Nat → FetchTrace
  | idx, n =>
    match env idx, n with
    | .jsonBody pt pt2 _err, _ =>
      let tok := tokenField pt pt2
      { result := if jsTruthyStr tok then tok else none, attempts := 1, waitedMs := 0 }
    | _, 0 => { result := none, attempts := 1, waitedMs := 0 }
    | _, Nat.succ m =>
      let r := attemptFetch env retryDelay (idx + 1) m
      { result := r.result, attempts := r.attempts + 1, waitedMs := r.waitedMs + retryDelay }
termination_by _idx n => n

/-- `fetchPoToken(baseUrl, contentBinding, retries = 3, retryDelay = 2000)`:
    starts `attemptFetch(retries)` at attempt index 0. -/
def fetchPoToken (env : Nat → AttemptOutcome) (retryDelay : Int) (retries : Nat) : FetchTrace :=
  attemptFetch env retryDelay 0 retries

/-- The response classes that `fetchPoToken` retries: a network-level error
    or a non-JSON HTML body. -/
def transientOutcome (o : AttemptOutcome) : Prop :=
  o = AttemptOutcome.netError ∨ o = AttemptOutcome.htmlBody

instance (o : AttemptOutcome) : Decidable (transientOutcome o) := by
  unfold transientOutcome; infer_instance

/-! ## src/ytdlp-extractor.js — metadata resolution (handle) -/

/-- The parsed JSON metadata object produced by the extraction tool, with
    the fields `handle` reads (src/ytdlp-extractor.js lines 100-113). -/
structure YtInfo where
  title : Option String
  description : Option String
  uploader : Option String
  webpage_url : Option String
  url : Option String
  thumbnail : Option String
  duration : Int
  view_count : Option Int
deriving DecidableEq

/-- The Track Descriptor built by `handle` (src/ytdlp-extractor.js lines 103-113). -/
structure Track where
  title : Option String
  description : Option String
  author : Option String
  url : Option String
  thumbnail : Option String
  duration : Int
  views : Option Int
  source : String
  raw : YtInfo
deriving DecidableEq

/-- Field mapping of `handle`: `author := uploader`,
    `url := webpage_url || url`, `duration := duration * 1000` (s → ms). -/
def trackOf (info : YtInfo) : Track :=
  { title := info.title
    description := info.description
    author := info.uploader
    url := if jsTruthyStr info.webpage_url then info.webpage_url else info.url
    thumbnail := info.thumbnail
    duration := info.duration * 1000
    views := info.view_count
    source := "youtube"
    raw := info }

/-- The value `handle` resolves with: `{ tracks: [...] }`. -/
structure ResolveResult where
  tracks : List Track
deriving DecidableEq

/-- The `close` handler of `handle` (src/ytdlp-extractor.js lines 92-120):
    non-zero exit code or empty accumulated stdout resolves with zero
    tracks; otherwise the output is parsed (`parse` models `JSON.parse`,
    `none` standing for a thrown parse error, caught at line 116) and a
    successful parse yields exactly one mapped track, a failed parse again
    zero tracks.  Total: every branch resolves, nothing is raised. -/
def handleClose (parse : String → Option YtInfo) (code : Int) (data : String) : ResolveResult :=
  if code != 0 || data == "" then { tracks := [] }
  else
    match parse data with
    | some info => { tracks := [trackOf info] }
    | none => { tracks := [] }

/-- The classification `const isUrl = query.startsWith("http")`
    (src/ytdlp-extractor.js line 72). -/
def queryIsUrl (query : JsStr) : Bool :=
  "http".toList.isPrefixOf query

/-- The argument list `handle` passes to the extraction tool
    (src/ytdlp-extractor.js lines 72-81): the query goes last, verbatim when
    it starts with `"http"`, otherwise wrapped as `ytsearch1:<query>`. -/
def handleArgs (jsRuntimeArgs : List JsStr) (query : JsStr) : List JsStr :=
  jsRuntimeArgs ++
    ["--dump-json".toList, "--flat-playlist".toList, "--no-playlist".toList,
     "--default-search".toList, "ytsearch".toList,
     if queryIsUrl query then query else "ytsearch1:".toList ++ query]

/-! ## Executable locator — getYtDlpPath -/

/-- Probe outcomes the locator branches on: whether the version probe of the
    PATH-installed binary exits 0, whether the co-located binary is
    executable (`fs.accessSync` does not throw), whether each bundled
    node_modules binary is executable, and the platform switch. -/
structure LocatorEnv where
  pathProbeOk : Bool
  localExecutable : Bool
  nmYtDlpExecutable : Bool
  nmYoutubeDlExecutable : Bool
  isWin32 : Bool
deriving DecidableEq

/-- The co-located binary path (src/unnamed/part_000 line 11):
    `path.join(projectRoot, platform === "win32" ? "yt-dlp.exe" : "yt-dlp")`. -/
def localBinaryPath (projectRoot : String) (isWin32 : Bool) : String :=
  projectRoot ++ "/" ++ (if isWin32 then "yt-dlp.exe" else "yt-dlp")

/-- `getYtDlpPath` from src/unnamed/part_000 lines 13-29: (1) the bare name
    if the PATH probe `spawnSync("yt-dlp", ["--version"])` exits 0, (2) the
    co-located project binary if executable, (3) the bare name as fallback.
    Total by construction: some string is returned on every branch. -/
def getYtDlpPath (projectRoot : String) (env : LocatorEnv) : String :=
  if env.pathProbeOk then "yt-dlp"
  else if env.localExecutable then localBinaryPath projectRoot env.isWin32
  else "yt-dlp"

/-- The node_modules candidate paths of the src/ytdlp-extractor.js variant
    (lines 13-16). -/
def nmBinaryPath (projectRoot : String) (name : String) : String :=
  projectRoot ++ "/node_modules/youtube-dl-exec/bin/" ++ name

/-- `getYtDlpPath` from src/ytdlp-extractor.js lines 18-43: same priority
    order with the two bundled node_modules binaries tried between the
    co-located binary and the bare-name fallback (no win32 switch there:
    the local binary is `yt-dlp`). -/
def getYtDlpPathExtractor (projectRoot : String) (env : LocatorEnv) : String :=
  if env.pathProbeOk then "yt-dlp"
  else if env.localExecutable then projectRoot ++ "/yt-dlp"
  else if env.nmYtDlpExecutable then nmBinaryPath projectRoot "yt-dlp"
  else if env.nmYoutubeDlExecutable then nmBinaryPath projectRoot "youtube-dl"
  else "yt-dlp"

/-! ## Stored annotation rows and the merged replay schedule
    (src/zen-bot/music/commands/stop.js lines 442-494) -/

/-- A stored comment row as returned by `getTrackComments`. -/
structure CommentRow where
  user_name : String
  comment_text : JsStr
  timestamp_ms : Int
deriving DecidableEq

/-- A stored reaction row as returned by `getTrackReactions`. -/
structure ReactionRow where
  user_name : String
  reaction_emoji : String
  timestamp_ms : Int
deriving DecidableEq

/-- One element of the merged `items` array built by
    `scheduleCommentAndReactionPlayback`: a comment or reaction row tagged
    with its `type`. -/
inductive PlaybackItem where
  | comment (c : CommentRow)
  | reaction (r : ReactionRow)
deriving DecidableEq

/-- The `timestamp_ms` copied onto the wrapper object. -/
def PlaybackItem.ts : PlaybackItem → Int
  | .comment c => c.timestamp_ms
  | .reaction r => r.timestamp_ms

/-- The `type === "reaction"` test of the comparator. -/
def PlaybackItem.isReaction : PlaybackItem → Bool
  | .comment _ => false
  | .reaction _ => true

/-- The comparator passed to `.sort` at stop.js line 451:
    `a.timestamp_ms - b.timestamp_ms || (a.type === "reaction" ? 1 : -1)`
    (JavaScript `||` on numbers: the difference unless it is 0). -/
def itemCompare (a b : PlaybackItem) : Int :=
  if a.ts - b.ts != 0 then a.ts - b.ts
  else if a.isReaction then 1 else -1

/-- `a` may stay before `b` under the comparator (comparator value ≤ 0). -/
def itemLe (a b : PlaybackItem) : Bool :=
  itemCompare a b ≤ 0

/-- Stable merge of two runs, taking from the left run while the comparator
    keeps its head in front (model of the merge step of a stable
    `Array.prototype.sort`). -/
def jsMerge (le : PlaybackItem → PlaybackItem → Bool) :
    List PlaybackItem → List PlaybackItem → List PlaybackItem
  | [], ys => ys
  | x :: xs, [] => x :: xs
  | x :: xs, y :: ys =>
    if le x y then x :: jsMerge le xs (y :: ys)
    else y :: jsMerge le (x :: xs) ys
termination_by xs ys => xs.length + ys.length

/-- Stable top-down merge sort: the model of `Array.prototype.sort`
    (stable per ES2019; first half before second half, merged by `jsMerge`). -/
def jsSort (le : PlaybackItem → PlaybackItem → Bool) :
    List PlaybackItem → List PlaybackItem
  | [] => []
  | [a] => [a]
  | a :: b :: rest =>
    jsMerge le
      (jsSort le ((a :: b :: rest).take ((a :: b :: rest).length / 2)))
      (jsSort le ((a :: b :: rest).drop ((a :: b :: rest).length / 2)))
termination_by l => l.length
decreasing_by
  · simp [List.length_take]; omega
  · simp [List.length_drop]; omega

/-- The merged `items` array of `scheduleCommentAndReactionPlayback`
    (stop.js lines 448-451): comments mapped first, then reactions, sorted
    with the timestamp/type comparator. -/
def mergedPlaybackItems (comments : List CommentRow) (reactions : List ReactionRow) :
    List PlaybackItem :=
  jsSort itemLe
    (comments.map PlaybackItem.comment ++ reactions.map PlaybackItem.reaction)

/-- The deferred deliveries registered by the loop at stop.js lines 460-493:
    one `setTimeout(..., item.timestamp_ms)` per merged item, in array
    order. -/
def playbackSchedule (comments : List CommentRow) (reactions : List ReactionRow) :
    List (Int × PlaybackItem) :=
  (mergedPlaybackItems comments reactions).map (fun item => (item.ts, item))

/-! ## src/bot/trackComments.js — tracking sessions and timer cancellation -/

/-- A tracking session (src/bot/trackComments.js lines 53-60):
    `scheduledTimeouts` holds the timer ids registered under the session. -/
structure Session where
  messageId : String
  trackUrl : String
  startTime : Int
  channelId : String
  scheduledTimeouts : List Nat

/-- The mutable state the session manager touches: the per-guild session
    map, the pool of still-live timers (`liveTimers id = true` iff the
    deferred delivery with id `id` may still fire; `clearTimeout` clears the
    flag), and the fresh-id counter for `setTimeout`. -/
structure BotState where
  activeSessions : String → Option Session
  liveTimers : Nat → Bool
  nextTimerId : Nat

/-- `stopTrackingSession(guildId)` (src/bot/trackComments.js lines 71-82):
    if a session exists, `clearTimeout` every id in its `scheduledTimeouts`;
    in every case delete the map entry. -/
def stopTrackingSession (g : String) (st : BotState) : BotState :=
  match st.activeSessions g with
  | some s =>
    { activeSessions := fun k => if k = g then none else st.activeSessions k
      liveTimers := fun id => if s.scheduledTimeouts.contains id then false else st.liveTimers id
      nextTimerId := st.nextTimerId }
  | none =>
    { st with activeSessions := fun k => if k = g then none else st.activeSessions k }

/-- `startTrackingSession(guildId, message, trackUrl)` (lines 49-65): stop
    any existing session first, then install a fresh session with an empty
    `scheduledTimeouts` list. -/
def startTrackingSession (g msgId channelId trackUrl : String) (now : Int)
    (st : BotState) : BotState :=
  let st1 := stopTrackingSession g st
  { st1 with
    activeSessions := fun k =>
      if k = g then
        some { messageId := msgId, trackUrl := trackUrl, startTime := now
               channelId := channelId, scheduledTimeouts := [] }
      else st1.activeSessions k }

/-- `getActiveSession(guildId)` (lines 89-91): a pure read. -/
def getActiveSession (g : String) (st : BotState) : Option Session :=
  st.activeSessions g

/-- The timer-registering loop shared by the playback schedulers
    (trackComments.js lines 115-156, stop.js lines 460-493): if a session
    is active, allocate one fresh live timer id per item and push it onto
    the session, advancing the fresh-id counter; without a session, no
    timers are registered. -/
def scheduleDeliveries (g : String) (items : List PlaybackItem) (st : BotState) : BotState :=
  match st.activeSessions g with
  | none => st
  | some s =>
    let newIds := (List.range items.length).map (fun i => st.nextTimerId + i)
    { activeSessions := fun k =>
        if k = g then some { s with scheduledTimeouts := s.scheduledTimeouts ++ newIds }
        else st.activeSessions k
      liveTimers := fun id => if newIds.contains id then true else st.liveTimers id
      nextTimerId := st.nextTimerId + items.length }

/-- A timer firing: only a live timer can fire, and firing consumes it. -/
def fireTimer (id : Nat) (st : BotState) : BotState :=
  if st.liveTimers id then
    { st with liveTimers := fun j => if j = id then false else st.liveTimers j }
  else st

/-- The events that touch the session/timer state. -/
inductive BotOp where
  | start (g msgId channelId trackUrl : String) (now : Int)
  | stop (g : String)
  | schedule (g : String) (items : List PlaybackItem)
  | fire (id : Nat)

def applyOp : BotOp → BotState → BotState
  | .start g msgId channelId trackUrl now, st => startTrackingSession g msgId channelId trackUrl now st
  | .stop g, st => stopTrackingSession g st
  | .schedule g items, st => scheduleDeliveries g items st
  | .fire id, st => fireTimer id st

def applyOps (ops : List BotOp) (st : BotState) : BotState :=
  ops.foldl (fun s op => applyOp op s) st

/-! ## src/bot/trackComments.js — comment capture (handlePotentialReply) -/

/-- The fields of an incoming platform message that `handlePotentialReply`
    reads. -/
structure IncomingMessage where
  authorBot : Bool
  authorId : String
  authorUsername : String
  authorTag : String
  content : JsStr
  referenceMessageId : Option String
  guildId : Option String
  attachmentUrls : List JsStr
  stickerUrls : List JsStr

/-- A row passed to `saveTrackComment`. -/
structure SavedComment where
  videoUrl : String
  guildId : String
  userId : String
  userName : String
  commentText : JsStr
  timestampMs : Int

/-- The attachment/sticker URL appending of `handlePotentialReply`
    (lines 196-214): join the URLs with newlines and append them below the
    text, or use them alone when the text is empty. -/
def appendUrls (text : JsStr) (urls : List JsStr) : JsStr :=
  if urls.isEmpty then text
  else if !text.isEmpty then text ++ ['\n'] ++ List.intercalate ['\n'] urls
  else List.intercalate ['\n'] urls

/-- `handlePotentialReply(message)` (src/bot/trackComments.js lines
    170-246), returning whether the message was handled and the row saved
    to the database (if any): bot authors, command-prefixed contents,
    non-replies, guild-less messages, missing sessions and replies to other
    messages are ignored; otherwise the comment text is the trimmed content
    plus attachment and sticker URLs, saved in full (no truncation) at
    offset `now - session.startTime`; an empty text is handled but not
    saved. -/
def handlePotentialReply (sessions : String → Option Session) (msg : IncomingMessage)
    (now : Int) : Bool × Option SavedComment :=
  if msg.authorBot then (false, none)
  else if ['#'].isPrefixOf msg.content then (false, none)
  else
    match msg.referenceMessageId with
    | none => (false, none)
    | some refId =>
      match msg.guildId with
      | none => (false, none)
      | some gid =>
        match sessions gid with
        | none => (false, none)
        | some session =>
          if refId != session.messageId then (false, none)
          else
            let timestampMs := now - session.startTime
            let ct := appendUrls (appendUrls (trimChars msg.content) msg.attachmentUrls)
                        msg.stickerUrls
            if ct.isEmpty then (true, none)
            else
              (true, some
                { videoUrl := session.trackUrl
                  guildId := gid
                  userId := msg.authorId
                  userName := if msg.authorUsername != "" then msg.authorUsername
                              else msg.authorTag
                  commentText := ct
                  timestampMs := timestampMs })

/-- Non-decreasing offsets: the delivery order property of the merged
    schedule. -/
def tsLe (a b : PlaybackItem) : Prop := a.ts ≤ b.ts

/-- At equal offsets a reaction is never placed before a comment: the
    tie-break property of the merged schedule. -/
def commentFirstAtTs (a b : PlaybackItem) : Prop :=
  ¬(a.ts = b.ts ∧ a.isReaction = true ∧ b.isReaction = false)

/-! ## Claim theorems -/

/-! ### Helper lemmas -/

theorem itemLe_true_iff (a b : PlaybackItem) :
    itemLe a b = true ↔ (a.ts < b.ts ∨ (a.ts = b.ts ∧ a.isReaction = false)) := by
  unfold itemLe itemCompare
  by_cases h0 : a.ts - b.ts = 0
  · by_cases hr : a.isReaction <;> simp [h0, hr] <;> omega
  · simp [h0]
    constructor
    · intro h
      left; omega
    · intro h
      rcases h with h | h <;> omega

theorem itemLe_false_iff (a b : PlaybackItem) :
    itemLe a b = false ↔ (b.ts < a.ts ∨ (a.ts = b.ts ∧ a.isReaction = true)) := by
  rw [← Bool.not_eq_true, itemLe_true_iff]
  by_cases hr : a.isReaction <;> simp [hr] <;> omega

theorem itemLe_tsLe {a b : PlaybackItem} (h : itemLe a b = true) : tsLe a b := by
  rcases (itemLe_true_iff a b).mp h with h | h <;> unfold tsLe <;> omega

theorem not_itemLe_tsLe {a b : PlaybackItem} (h : itemLe a b = false) : tsLe b a := by
  rcases (itemLe_false_iff a b).mp h with h | h <;> unfold tsLe <;> omega

theorem itemLe_commentFirst_left {x y z : PlaybackItem}
    (h : itemLe x y = true) (hyz : tsLe y z) : commentFirstAtTs x z := by
  rintro ⟨h1, h2, h3⟩
  rcases (itemLe_true_iff x y).mp h with h4 | ⟨h4, h5⟩
  · unfold tsLe at hyz; omega
  · rw [h2] at h5; cases h5

theorem not_itemLe_commentFirst {x y z : PlaybackItem}
    (h : itemLe x y = false) (hxz : tsLe x z) (hT : commentFirstAtTs x z) :
    commentFirstAtTs y z := by
  rintro ⟨h1, h2, h3⟩
  rcases (itemLe_false_iff x y).mp h with h4 | ⟨h4, h5⟩
  · unfold tsLe at hxz; omega
  · exact hT ⟨by omega, h5, h3⟩

theorem commentFirst_refl (x : PlaybackItem) : commentFirstAtTs x x := by
  rintro ⟨_, h2, h3⟩
  rw [h2] at h3; cases h3

theorem jsMerge_perm (le : PlaybackItem → PlaybackItem → Bool) :
    ∀ xs ys, List.Perm (jsMerge le xs ys) (xs ++ ys)
  | [], ys => by simp [jsMerge]
  | x :: xs, [] => by simp [jsMerge]
  | x :: xs, y :: ys => by
    simp only [jsMerge]
    by_cases h : le x y
    · rw [if_pos h]
      exact (jsMerge_perm le xs (y :: ys)).cons x
    · rw [if_neg h]
      exact ((jsMerge_perm le (x :: xs) ys).cons y).trans List.perm_middle.symm
termination_by xs ys => xs.length + ys.length

theorem jsSort_perm (le : PlaybackItem → PlaybackItem → Bool) :
    ∀ l, List.Perm (jsSort le l) l
  | [] => by simp [jsSort]
  | [a] => by simp [jsSort]
  | a :: b :: rest => by
    simp only [jsSort]
    have h1 := jsSort_perm le ((a :: b :: rest).take ((a :: b :: rest).length / 2))
    have h2 := jsSort_perm le ((a :: b :: rest).drop ((a :: b :: rest).length / 2))
    have heq : (a :: b :: rest).take ((a :: b :: rest).length / 2) ++
        (a :: b :: rest).drop ((a :: b :: rest).length / 2) = a :: b :: rest :=
      List.take_append_drop _ _
    refine (jsMerge_perm le _ _).trans ?_
    have hp := h1.append h2
    rw [heq] at hp
    exact hp
termination_by l => l.length
decreasing_by
  · simp [List.length_take]; omega
  · simp [List.length_drop]; omega

theorem jsMerge_pairwise :
    ∀ xs ys, xs.Pairwise tsLe → xs.Pairwise commentFirstAtTs →
      ys.Pairwise tsLe → ys.Pairwise commentFirstAtTs →
      (jsMerge itemLe xs ys).Pairwise tsLe ∧
        (jsMerge itemLe xs ys).Pairwise commentFirstAtTs
  | [], ys => by
    intro _ _ h3 h4
    simp only [jsMerge]
    exact ⟨h3, h4⟩
  | x :: xs, [] => by
    intro h1 h2 _ _
    simp only [jsMerge]
    exact ⟨h1, h2⟩
  | x :: xs, y :: ys => by
    intro h1 h2 h3 h4
    rw [List.pairwise_cons] at h1 h2 h3 h4
    simp only [jsMerge]
    by_cases h : itemLe x y
    · rw [if_pos h]
      have IH := jsMerge_pairwise xs (y :: ys) h1.2 h2.2
        (List.pairwise_cons.mpr h3) (List.pairwise_cons.mpr h4)
      have hmem : ∀ z, z ∈ jsMerge itemLe xs (y :: ys) → z ∈ xs ∨ z = y ∨ z ∈ ys := by
        intro z hz
        have := (jsMerge_perm itemLe xs (y :: ys)).mem_iff.mp hz
        simpa using this
      constructor
      · rw [List.pairwise_cons]
        refine ⟨?_, IH.1⟩
        intro z hz
        rcases hmem z hz with hz | hz | hz
        · exact h1.1 z hz
        · subst hz; exact itemLe_tsLe h
        · have := h3.1 z hz
          have := itemLe_tsLe h
          unfold tsLe at *; omega
      · rw [List.pairwise_cons]
        refine ⟨?_, IH.2⟩
        intro z hz
        rcases hmem z hz with hz | hz | hz
        · exact h2.1 z hz
        · subst hz
          exact itemLe_commentFirst_left h (by unfold tsLe; omega)
        · exact itemLe_commentFirst_left h (h3.1 z hz)
    · rw [if_neg h]
      have IH := jsMerge_pairwise (x :: xs) ys
        (List.pairwise_cons.mpr h1) (List.pairwise_cons.mpr h2) h3.2 h4.2
      have hb : itemLe x y = false := by
        exact Bool.not_eq_true _ ▸ (by simpa using h)
      have hmem : ∀ z, z ∈ jsMerge itemLe (x :: xs) ys → z = x ∨ z ∈ xs ∨ z ∈ ys := by
        intro z hz
        have := (jsMerge_perm itemLe (x :: xs) ys).mem_iff.mp hz
        simpa using this
      constructor
      · rw [List.pairwise_cons]
        refine ⟨?_, IH.1⟩
        intro z hz
        have hyx : tsLe y x := not_itemLe_tsLe hb
        rcases hmem z hz with hz | hz | hz
        · subst hz; exact hyx
        · have := h1.1 z hz
          unfold tsLe at *; omega
        · exact h3.1 z hz
      · rw [List.pairwise_cons]
        refine ⟨?_, IH.2⟩
        intro z hz
        rcases hmem z hz with hz | hz | hz
        · subst hz
          exact not_itemLe_commentFirst hb (by unfold tsLe; omega) (commentFirst_refl _)
        · exact not_itemLe_commentFirst hb (h1.1 z hz) (h2.1 z hz)
        · exact h4.1 z hz
termination_by xs ys => xs.length + ys.length

theorem jsSort_pairwise :
    ∀ l, (jsSort itemLe l).Pairwise tsLe ∧
      (jsSort itemLe l).Pairwise commentFirstAtTs
  | [] => by simp [jsSort]
  | [a] => by simp [jsSort]
  | a :: b :: rest => by
    simp only [jsSort]
    have IH1 := jsSort_pairwise ((a :: b :: rest).take ((a :: b :: rest).length / 2))
    have IH2 := jsSort_pairwise ((a :: b :: rest).drop ((a :: b :: rest).length / 2))
    exact jsMerge_pairwise _ _ IH1.1 IH1.2 IH2.1 IH2.2
termination_by l => l.length
decreasing_by
  · simp [List.length_take]; omega
  · simp [List.length_drop]; omega

/-- C3: For every TTL and set-time `t0`, a token cache entry written by
    `set` at `t0` is returned by `get` at every read time `t1 ≤ t0 + ttl`
    with the stored value unchanged and no state change (no expiry
    refresh); at every read time `t2` strictly after `t0 + ttl`, `get`
    returns absent and evicts the entry; and `set` always overwrites with
    expiry `t0 + ttl`. -/
theorem c3_token_cache_ttl (c : PoTokenCache) (t0 t1 t2 : Int) (k v : String)
    (h1 : t1 ≤ t0 + c.ttl) (h2 : t0 + c.ttl < t2) :
    (c.set t0 k v).cache k = some { value := v, expiry := t0 + c.ttl } ∧
    (c.set t0 k v).get t1 k = (some v, c.set t0 k v) ∧
    ((c.set t0 k v).get t2 k).1 = none ∧
    ((c.set t0 k v).get t2 k).2.cache k = none := by
  have hset : (c.set t0 k v).cache k = some { value := v, expiry := t0 + c.ttl } := by
    simp [PoTokenCache.set]
  refine ⟨hset, ?_, ?_, ?_⟩
  · unfold PoTokenCache.get
    rw [hset]
    dsimp only
    rw [if_neg (by omega)]
  · unfold PoTokenCache.get
    rw [hset]
    dsimp only
    rw [if_pos (by omega)]
  · unfold PoTokenCache.get
    rw [hset]
    dsimp only
    rw [if_pos (by omega)]
    simp

/-- Witness for C3 at a concrete cache, key and clock values. -/
theorem c3_token_cache_ttl_witness :
    ((PoTokenCache.init 6).set 0 "gvs" "tok").get 100 "gvs"
      = (some "tok", (PoTokenCache.init 6).set 0 "gvs" "tok") ∧
    ((((PoTokenCache.init 6).set 0 "gvs" "tok").get 21600001 "gvs").1 = none) :=
  ⟨(c3_token_cache_ttl (PoTokenCache.init 6) 0 100 21600001 "gvs" "tok"
      (by decide) (by decide)).2.1,
   (c3_token_cache_ttl (PoTokenCache.init 6) 0 100 21600001 "gvs" "tok"
      (by decide) (by decide)).2.2.1⟩

/-- C5: the resolver close handler returns an empty result (zero tracks)
    whenever the tool exits non-zero or with empty stdout, and whenever the
    output fails to parse as JSON; being a total function it raises nothing
    across its interface. -/
theorem c5_resolver_failures_empty
    (parse : String → Option YtInfo) (code : Int) (data : String)
    (parse2 : String → Option YtInfo) (code2 : Int) (data2 : String)
    (h : code ≠ 0 ∨ data = "") (h2 : parse2 data2 = none) :
    handleClose parse code data = { tracks := [] } ∧
    handleClose parse2 code2 data2 = { tracks := [] } := by
  constructor
  · rcases h with h | h <;> simp [handleClose, h]
  · unfold handleClose
    by_cases hc : (code2 != 0 || data2 == "") = true
    · simp [hc]
    · simp [hc, h2]

/-- Witness for C5: non-zero exit, empty stdout and a parse failure all
    yield zero tracks. -/
theorem c5_resolver_failures_empty_witness :
    handleClose (fun _ => none) 1 "out" = { tracks := [] } ∧
    handleClose (fun _ => none) 0 "bad" = { tracks := [] } :=
  ⟨(c5_resolver_failures_empty (fun _ => none) 1 "out" (fun _ => none) 0 "bad"
      (Or.inl (by decide)) rfl).1,
   (c5_resolver_failures_empty (fun _ => none) 1 "out" (fun _ => none) 0 "bad"
      (Or.inl (by decide)) rfl).2⟩

/-- C6: when the tool exits 0 with non-empty output that parses, the
    resolver returns exactly one Track Descriptor, and its duration in
    milliseconds is the parsed duration in seconds times 1000. -/
theorem c6_resolver_duration_ms
    (parse : String → Option YtInfo) (data : String) (info : YtInfo)
    (hd : data ≠ "") (hp : parse data = some info) :
    handleClose parse 0 data = { tracks := [trackOf info] } ∧
    (handleClose parse 0 data).tracks.length = 1 ∧
    (trackOf info).duration = info.duration * 1000 := by
  have hmain : handleClose parse 0 data = { tracks := [trackOf info] } := by
    simp [handleClose, hd, hp]
  exact ⟨hmain, by simp [hmain], rfl⟩

/-- Witness for C6 at a concrete parsed object with a 7-second duration. -/
theorem c6_resolver_duration_ms_witness :
    (handleClose
        (fun _ => some { title := some "t", description := none, uploader := none,
                         webpage_url := none, url := some "u", thumbnail := none,
                         duration := 7, view_count := none })
        0 "x").tracks.length = 1 :=
  (c6_resolver_duration_ms
      (fun _ => some { title := some "t", description := none, uploader := none,
                       webpage_url := none, url := some "u", thumbnail := none,
                       duration := 7, view_count := none })
      "x" _ (by decide) rfl).2.1

/-- C8: a query is passed to the extraction tool verbatim exactly when it
    begins with the scheme prefix `"http"`; every other query is passed
    wrapped in the single-result search form `ytsearch1:<query>`. -/
theorem c8_query_classification (jsArgs : List JsStr) (q1 q2 : JsStr)
    (h1 : queryIsUrl q1 = true) (h2 : queryIsUrl q2 = false) :
    handleArgs jsArgs q1 =
      jsArgs ++ ["--dump-json".toList, "--flat-playlist".toList, "--no-playlist".toList,
                 "--default-search".toList, "ytsearch".toList, q1] ∧
    handleArgs jsArgs q2 =
      jsArgs ++ ["--dump-json".toList, "--flat-playlist".toList, "--no-playlist".toList,
                 "--default-search".toList, "ytsearch".toList,
                 "ytsearch1:".toList ++ q2] := by
  constructor <;> simp [handleArgs, h1, h2]

/-- Witness for C8 at a URL query and a free-text query. -/
theorem c8_query_classification_witness :
    handleArgs [] "https://youtu.be/x".toList =
      ["--dump-json".toList, "--flat-playlist".toList, "--no-playlist".toList,
       "--default-search".toList, "ytsearch".toList, "https://youtu.be/x".toList] ∧
    handleArgs [] "hello world".toList =
      ["--dump-json".toList, "--flat-playlist".toList, "--no-playlist".toList,
       "--default-search".toList, "ytsearch".toList,
       "ytsearch1:".toList ++ "hello world".toList] := by
  have h := c8_query_classification [] "https://youtu.be/x".toList "hello world".toList
    (by decide) (by decide)
  exact ⟨by simpa using h.1, by simpa using h.2⟩

/-- C9: the locator is total — on every combination of probe outcomes it
    returns some path, always one of the known candidates — and it tries
    candidates in priority order: the bare name when the PATH version probe
    succeeds, else the co-located binary when executable, else (for the
    extractor variant: the bundled binaries and then) the bare name. -/
theorem c9_locator_total_priority (root : String) (e1 e2 e3 e4 : LocatorEnv)
    (h1 : e1.pathProbeOk = true)
    (h2 : e2.pathProbeOk = false) (h2b : e2.localExecutable = true)
    (h3 : e3.pathProbeOk = false) (h3b : e3.localExecutable = false) :
    getYtDlpPath root e1 = "yt-dlp" ∧
    getYtDlpPath root e2 = localBinaryPath root e2.isWin32 ∧
    getYtDlpPath root e3 = "yt-dlp" ∧
    (getYtDlpPath root e4 = "yt-dlp" ∨
      getYtDlpPath root e4 = localBinaryPath root e4.isWin32) ∧
    getYtDlpPathExtractor root e1 = "yt-dlp" ∧
    getYtDlpPathExtractor root e2 = root ++ "/yt-dlp" ∧
    (getYtDlpPathExtractor root e4 = "yt-dlp" ∨
      getYtDlpPathExtractor root e4 = root ++ "/yt-dlp" ∨
      getYtDlpPathExtractor root e4 = nmBinaryPath root "yt-dlp" ∨
      getYtDlpPathExtractor root e4 = nmBinaryPath root "youtube-dl") := by
  refine ⟨?_, ?_, ?_, ?_, ?_, ?_, ?_⟩
  · simp [getYtDlpPath, h1]
  · simp [getYtDlpPath, h2, h2b]
  · simp [getYtDlpPath, h3, h3b]
  · unfold getYtDlpPath
    by_cases hp : e4.pathProbeOk <;> by_cases hl : e4.localExecutable <;> simp [hp, hl]
  · simp [getYtDlpPathExtractor, h1]
  · simp [getYtDlpPathExtractor, h2, h2b]
  · unfold getYtDlpPathExtractor
    by_cases hp : e4.pathProbeOk <;> by_cases hl : e4.localExecutable <;>
      by_cases hn1 : e4.nmYtDlpExecutable <;> by_cases hn2 : e4.nmYoutubeDlExecutable <;>
      simp [hp, hl, hn1, hn2]

/-- Witness for C9 at concrete probe outcomes. -/
theorem c9_locator_total_priority_witness :
    getYtDlpPath "/app" ⟨true, false, false, false, false⟩ = "yt-dlp" ∧
    getYtDlpPath "/app" ⟨false, true, false, false, false⟩
      = localBinaryPath "/app" false := by
  have h := c9_locator_total_priority "/app"
    ⟨true, false, false, false, false⟩
    ⟨false, true, false, false, false⟩
    ⟨false, false, false, false, false⟩
    ⟨false, false, false, false, false⟩
    rfl rfl rfl rfl rfl
  exact ⟨h.1, h.2.1⟩

/-- C10: any text that begins with the literal prefix `http://` or
    `https://` passes through the display-truncation function completely
    unchanged, whatever its length or line structure. -/
theorem c10_url_prefix_untruncated (text : JsStr) (maxLength : Nat)
    (h : "http://".toList.isPrefixOf text = true ∨
         "https://".toList.isPrefixOf text = true) :
    truncateText text maxLength = text := by
  have hs : startsWithUrl text = true := by
    unfold startsWithUrl
    rcases h with h | h <;> rw [h] <;> simp
  simp [truncateText, hs]

/-- Witness for C10: a multi-line URL-prefixed text whose second line is 210
    non-URL characters is returned unchanged. -/
theorem c10_url_prefix_untruncated_witness :
    truncateText ("https://x.example/a".toList ++ ['\n'] ++ List.replicate 210 'b') 200
      = "https://x.example/a".toList ++ ['\n'] ++ List.replicate 210 'b' :=
  c10_url_prefix_untruncated _ 200 (Or.inr (by decide))

theorem attemptFetch_all_transient (env : Nat → AttemptOutcome) (d : Int) :
    ∀ n idx, (∀ i, i ≤ n → transientOutcome (env (idx + i))) →
      attemptFetch env d idx n =
        { result := none, attempts := n + 1, waitedMs := n * d } := by
  intro n
  induction n with
  | zero =>
    intro idx h
    have h0 := h 0 (by omega)
    simp only [Nat.add_zero] at h0
    rcases h0 with h0 | h0 <;>
      · rw [attemptFetch.eq_def]
        dsimp only
        rw [h0]
        simp
  | succ m ih =>
    intro idx h
    have h0 := h 0 (by omega)
    simp only [Nat.add_zero] at h0
    have hrec := ih (idx + 1) (by
      intro i hi
      have := h (i + 1) (by omega)
      have harith : idx + (i + 1) = idx + 1 + i := by omega
      rwa [harith] at this)
    rcases h0 with h0 | h0 <;>
      · rw [attemptFetch.eq_def]
        dsimp only
        rw [h0]
        dsimp only
        rw [hrec]
        simp only [FetchTrace.mk.injEq]
        refine ⟨by trivial, by trivial, ?_⟩
        push_cast
        ring

theorem attemptFetch_json_at (env : Nat → AttemptOutcome) (d : Int)
    (pt pt2 er : Option String) :
    ∀ k idx n, k ≤ n → (∀ i, i < k → transientOutcome (env (idx + i))) →
      env (idx + k) = AttemptOutcome.jsonBody pt pt2 er →
      attemptFetch env d idx n =
        { result := if jsTruthyStr (tokenField pt pt2) then tokenField pt pt2 else none,
          attempts := k + 1, waitedMs := k * d } := by
  intro k
  induction k with
  | zero =>
    intro idx n _ _ hjson
    simp only [Nat.add_zero] at hjson
    cases n <;>
      · rw [attemptFetch.eq_def]
        dsimp only
        rw [hjson]
        simp
  | succ j ih =>
    intro idx n hkn hpre hjson
    have h0 := hpre 0 (by omega)
    simp only [Nat.add_zero] at h0
    cases n with
    | zero => omega
    | succ m =>
      have hrec := ih (idx + 1) m (by omega)
        (by
          intro i hi
          have := hpre (i + 1) (by omega)
          have harith : idx + (i + 1) = idx + 1 + i := by omega
          rwa [harith] at this)
        (by
          have harith : idx + (j + 1) = idx + 1 + j := by omega
          rwa [harith] at hjson)
      rcases h0 with h0 | h0 <;>
        · rw [attemptFetch.eq_def]
          dsimp only
          rw [h0]
          dsimp only
          rw [hrec]
          simp only [FetchTrace.mk.injEq]
          refine ⟨by trivial, by trivial, ?_⟩
          push_cast
          ring

/-- C2: for every set of stored comments and reactions, the merged replay
    schedule contains exactly one deferred delivery per stored item (it is
    a permutation of the tagged inputs, of total length), it is ordered by
    non-decreasing offset, at equal offsets no reaction is ever placed
    before a comment (so every comment precedes every reaction with
    the same offset), and each delivery is scheduled at a delay equal to
    its item offset. -/
theorem c2_merged_schedule_order (comments : List CommentRow) (reactions : List ReactionRow) :
    List.Perm (mergedPlaybackItems comments reactions)
      (comments.map PlaybackItem.comment ++ reactions.map PlaybackItem.reaction) ∧
    (playbackSchedule comments reactions).length = comments.length + reactions.length ∧
    (mergedPlaybackItems comments reactions).Pairwise tsLe ∧
    (mergedPlaybackItems comments reactions).Pairwise commentFirstAtTs ∧
    ∀ p ∈ playbackSchedule comments reactions, p.1 = p.2.ts := by
  have hperm := jsSort_perm itemLe
    (comments.map PlaybackItem.comment ++ reactions.map PlaybackItem.reaction)
  have hpair := jsSort_pairwise
    (comments.map PlaybackItem.comment ++ reactions.map PlaybackItem.reaction)
  refine ⟨hperm, ?_, hpair.1, hpair.2, ?_⟩
  · have hlen := hperm.length_eq
    simp only [playbackSchedule, List.length_map]
    simp only [List.length_append, List.length_map] at hlen
    exact hlen
  · intro p hp
    simp only [playbackSchedule, List.mem_map] at hp
    obtain ⟨item, _, rfl⟩ := hp
    rfl

/-- Witness for C2 at one comment and one reaction sharing offset 2000. -/
theorem c2_merged_schedule_order_witness :
    (mergedPlaybackItems [{ user_name := "u", comment_text := ['h'], timestamp_ms := 2000 }]
        [{ user_name := "v", reaction_emoji := "x", timestamp_ms := 2000 }]).Pairwise
      commentFirstAtTs ∧
    (playbackSchedule [{ user_name := "u", comment_text := ['h'], timestamp_ms := 2000 }]
        [{ user_name := "v", reaction_emoji := "x", timestamp_ms := 2000 }]).length = 2 :=
  ⟨(c2_merged_schedule_order _ _).2.2.2.1, (c2_merged_schedule_order _ _).2.1⟩

/-- C4: `fetchPoToken` retries HTML-body and network-error attempts with
    the fixed delay until the budget (`retries` further attempts after the
    first) is exhausted and then returns absent; an attempt that parses as
    JSON with no usable token but an error field returns absent immediately
    after that attempt, with no further attempts and no further delay; and
    a JSON attempt carrying a token under either accepted field name
    (`poToken`, or `po_token` when `poToken` is not truthy) returns that
    token immediately. -/
theorem c4_fetch_retry_policy (d : Int)
    (envA : Nat → AttemptOutcome) (nA : Nat)
    (hA : ∀ i, i ≤ nA → transientOutcome (envA i))
    (envB : Nat → AttemptOutcome) (kB nB : Nat)
    (ptB pt2B : Option String) (erB : String)
    (hB1 : kB ≤ nB) (hB2 : ∀ i, i < kB → transientOutcome (envB i))
    (hB3 : envB kB = AttemptOutcome.jsonBody ptB pt2B (some erB))
    (hB4 : jsTruthyStr (tokenField ptB pt2B) = false) (hB5 : erB ≠ "")
    (envC : Nat → AttemptOutcome) (kC nC : Nat)
    (sC : String) (pt2C : Option String) (erC : Option String)
    (hC1 : kC ≤ nC) (hC2 : ∀ i, i < kC → transientOutcome (envC i))
    (hC3 : envC kC = AttemptOutcome.jsonBody (some sC) pt2C erC) (hC4 : sC ≠ "")
    (envD : Nat → AttemptOutcome) (kD nD : Nat)
    (sD : String) (ptD : Option String) (erD : Option String)
    (hD1 : kD ≤ nD) (hD2 : ∀ i, i < kD → transientOutcome (envD i))
    (hD3 : envD kD = AttemptOutcome.jsonBody ptD (some sD) erD)
    (hD4 : jsTruthyStr ptD = false) (hD5 : sD ≠ "") :
    fetchPoToken envA d nA = { result := none, attempts := nA + 1, waitedMs := nA * d } ∧
    fetchPoToken envB d nB = { result := none, attempts := kB + 1, waitedMs := kB * d } ∧
    fetchPoToken envC d nC = { result := some sC, attempts := kC + 1, waitedMs := kC * d } ∧
    fetchPoToken envD d nD = { result := some sD, attempts := kD + 1, waitedMs := kD * d } := by
  refine ⟨?_, ?_, ?_, ?_⟩
  · exact attemptFetch_all_transient envA d nA 0 (by intro i hi; simpa using hA i hi)
  · rw [fetchPoToken, attemptFetch_json_at envB d ptB pt2B (some erB) kB 0 nB hB1
      (by intro i hi; simpa using hB2 i hi) (by simpa using hB3)]
    rw [hB4]
    simp
  · rw [fetchPoToken, attemptFetch_json_at envC d (some sC) pt2C erC kC 0 nC hC1
      (by intro i hi; simpa using hC2 i hi) (by simpa using hC3)]
    have ht : jsTruthyStr (tokenField (some sC) pt2C) = true := by
      simp [tokenField, jsTruthyStr, hC4]
    rw [ht]
    simp [tokenField, jsTruthyStr, hC4]
  · rw [fetchPoToken, attemptFetch_json_at envD d ptD (some sD) erD kD 0 nD hD1
      (by intro i hi; simpa using hD2 i hi) (by simpa using hD3)]
    have htf : tokenField ptD (some sD) = some sD := by
      simp [tokenField, hD4]
    rw [htf]
    simp [jsTruthyStr, hD5]

/-- Witness for C4 at a concrete budget of 3 retries and 2000 ms delay:
    all-transient attempts exhaust the budget; an explicit JSON rejection
    after one network error stops after 2 attempts; both token field
    spellings return the token on the first attempt. -/
theorem c4_fetch_retry_policy_witness :
    fetchPoToken (fun _ => AttemptOutcome.htmlBody) 2000 3 =
      { result := none, attempts := 4, waitedMs := 6000 } ∧
    fetchPoToken
      (fun i => if i = 0 then AttemptOutcome.netError
                else AttemptOutcome.jsonBody none none (some "denied")) 2000 3 =
      { result := none, attempts := 2, waitedMs := 2000 } ∧
    fetchPoToken (fun _ => AttemptOutcome.jsonBody (some "T1") none none) 2000 3 =
      { result := some "T1", attempts := 1, waitedMs := 0 } ∧
    fetchPoToken (fun _ => AttemptOutcome.jsonBody none (some "T2") none) 2000 3 =
      { result := some "T2", attempts := 1, waitedMs := 0 } := by
  have h := c4_fetch_retry_policy 2000
    (fun _ => AttemptOutcome.htmlBody) 3
    (by intro i _; exact Or.inr rfl)
    (fun i => if i = 0 then AttemptOutcome.netError
              else AttemptOutcome.jsonBody none none (some "denied")) 1 3
    none none "denied"
    (by omega) (by intro i hi; interval_cases i <;> exact Or.inl rfl)
    (by simp) (by simp [tokenField, jsTruthyStr]) (by simp)
    (fun _ => AttemptOutcome.jsonBody (some "T1") none none) 0 3
    "T1" none none
    (by omega) (by intro i hi; omega) (by simp) (by simp)
    (fun _ => AttemptOutcome.jsonBody none (some "T2") none) 0 3
    "T2" none none
    (by omega) (by intro i hi; omega) (by simp) (by simp [jsTruthyStr]) (by simp)
  refine ⟨?_, ?_, ?_, ?_⟩
  · have := h.1
    simpa using this
  · have := h.2.1
    simpa using this
  · have := h.2.2.1
    simpa using this
  · have := h.2.2.2
    simpa using this

theorem stop_cancels (g : String) (st : BotState) (s : Session)
    (hs : st.activeSessions g = some s) :
    (∀ id ∈ s.scheduledTimeouts, (stopTrackingSession g st).liveTimers id = false) ∧
    (stopTrackingSession g st).activeSessions g = none ∧
    (stopTrackingSession g st).nextTimerId = st.nextTimerId := by
  unfold stopTrackingSession
  rw [hs]
  refine ⟨?_, ?_, rfl⟩
  · intro id hid
    simp [hid]
  · simp

theorem stop_idle_noop (g : String) (st : BotState)
    (h : st.activeSessions g = none) : stopTrackingSession g st = st := by
  unfold stopTrackingSession
  rw [h]
  dsimp only
  have hf : (fun k => if k = g then none else st.activeSessions k) = st.activeSessions := by
    funext k
    by_cases hk : k = g
    · subst hk
      rw [if_pos rfl, h]
    · rw [if_neg hk]
  rw [hf]

theorem fire_dead_noop (id : Nat) (st : BotState)
    (h : st.liveTimers id = false) : fireTimer id st = st := by
  unfold fireTimer
  rw [h]
  simp

theorem applyOp_dead (op : BotOp) (st : BotState) (id : Nat)
    (h1 : st.liveTimers id = false) (h2 : id < st.nextTimerId) :
    (applyOp op st).liveTimers id = false ∧ id < (applyOp op st).nextTimerId := by
  cases op with
  | start g msgId channelId trackUrl now =>
    simp only [applyOp]
    unfold startTrackingSession stopTrackingSession
    cases hs : st.activeSessions g <;> dsimp only
    · exact ⟨h1, h2⟩
    · rename_i s
      refine ⟨?_, h2⟩
      by_cases hc : s.scheduledTimeouts.contains id <;> simp [hc, h1]
  | stop g =>
    simp only [applyOp]
    unfold stopTrackingSession
    cases hs : st.activeSessions g <;> dsimp only
    · exact ⟨h1, h2⟩
    · rename_i s
      refine ⟨?_, h2⟩
      by_cases hc : s.scheduledTimeouts.contains id <;> simp [hc, h1]
  | schedule g items =>
    simp only [applyOp]
    unfold scheduleDeliveries
    cases hs : st.activeSessions g <;> dsimp only
    · exact ⟨h1, h2⟩
    · rename_i s
      have hninc : id ∉ (List.range items.length).map (fun i => st.nextTimerId + i) := by
        intro hmem
        simp only [List.mem_map, List.mem_range] at hmem
        obtain ⟨i, _, hi⟩ := hmem
        omega
      refine ⟨?_, by omega⟩
      simp [hninc, h1]
  | fire j =>
    simp only [applyOp]
    unfold fireTimer
    by_cases hl : st.liveTimers j
    · rw [if_pos hl]
      refine ⟨?_, h2⟩
      by_cases hij : id = j <;> simp [hij, h1]
    · rw [if_neg hl]
      exact ⟨h1, h2⟩

theorem applyOps_dead (ops : List BotOp) :
    ∀ st id, st.liveTimers id = false → id < st.nextTimerId →
      (applyOps ops st).liveTimers id = false := by
  induction ops with
  | nil =>
    intro st id h1 _
    simpa [applyOps] using h1
  | cons op rest ih =>
    intro st id h1 h2
    have h := applyOp_dead op st id h1 h2
    have hstep : applyOps (op :: rest) st = applyOps rest (applyOp op st) := by
      simp [applyOps]
    rw [hstep]
    exact ih _ _ h.1 h.2

/-- C1: starting a new tracking session while one is active, and stopping a
    session, cancel every outstanding deferred delivery registered under the
    superseded/stopped session before the new state takes effect (the new
    session starts with no pending deliveries), a canceled delivery never
    fires (it stays canceled under every later event, and firing a canceled
    timer delivers nothing), and stop on an already-idle room is a no-op. -/
theorem c1_session_cancellation
    (st1 : BotState) (g : String) (s : Session)
    (hs : st1.activeSessions g = some s)
    (hwf : ∀ id ∈ s.scheduledTimeouts, id < st1.nextTimerId)
    (msgId channelId trackUrl : String) (now : Int)
    (st2 : BotState) (g2 : String) (hidle : st2.activeSessions g2 = none)
    (st3 : BotState) (tid : Nat) (hdead : st3.liveTimers tid = false) :
    (∀ id ∈ s.scheduledTimeouts, (stopTrackingSession g st1).liveTimers id = false) ∧
    (stopTrackingSession g st1).activeSessions g = none ∧
    (∀ id ∈ s.scheduledTimeouts,
      (startTrackingSession g msgId channelId trackUrl now st1).liveTimers id = false) ∧
    (startTrackingSession g msgId channelId trackUrl now st1).activeSessions g =
      some { messageId := msgId, trackUrl := trackUrl, startTime := now,
             channelId := channelId, scheduledTimeouts := [] } ∧
    (∀ ops, ∀ id ∈ s.scheduledTimeouts,
      (applyOps ops (stopTrackingSession g st1)).liveTimers id = false) ∧
    (∀ ops, ∀ id ∈ s.scheduledTimeouts,
      (applyOps ops (startTrackingSession g msgId channelId trackUrl now st1)).liveTimers
        id = false) ∧
    fireTimer tid st3 = st3 ∧
    stopTrackingSession g2 st2 = st2 := by
  have hstop := stop_cancels g st1 s hs
  have hstartLive :
      ∀ id ∈ s.scheduledTimeouts,
        (startTrackingSession g msgId channelId trackUrl now st1).liveTimers id = false := by
    intro id hid
    simpa [startTrackingSession] using hstop.1 id hid
  have hstartNext :
      (startTrackingSession g msgId channelId trackUrl now st1).nextTimerId =
        st1.nextTimerId := by
    simpa [startTrackingSession] using hstop.2.2
  refine ⟨hstop.1, hstop.2.1, hstartLive, ?_, ?_, ?_, fire_dead_noop tid st3 hdead,
    stop_idle_noop g2 st2 hidle⟩
  · simp [startTrackingSession]
  · intro ops id hid
    exact applyOps_dead ops _ id (hstop.1 id hid) (by rw [hstop.2.2]; exact hwf id hid)
  · intro ops id hid
    exact applyOps_dead ops _ id (hstartLive id hid) (by rw [hstartNext]; exact hwf id hid)

/-- Witness for C1: a session with two pending deliveries; stop cancels
    them; after a superseding start they stay canceled under later events;
    stop on an idle state is the identity. -/
theorem c1_session_cancellation_witness :
    (stopTrackingSession "g"
        ⟨fun _ => some ⟨"m1", "t", 0, "ch", [0, 1]⟩, fun id => decide (id < 2), 2⟩).liveTimers
        0 = false ∧
    (applyOps [BotOp.fire 1, BotOp.schedule "g" []]
        (startTrackingSession "g" "m2" "ch" "t" 500
          ⟨fun _ => some ⟨"m1", "t", 0, "ch", [0, 1]⟩, fun id => decide (id < 2), 2⟩)).liveTimers
        1 = false ∧
    stopTrackingSession "g" ⟨fun _ => none, fun _ => false, 0⟩ =
      (⟨fun _ => none, fun _ => false, 0⟩ : BotState) := by
  have h := c1_session_cancellation
    ⟨fun _ => some ⟨"m1", "t", 0, "ch", [0, 1]⟩, fun id => decide (id < 2), 2⟩
    "g" ⟨"m1", "t", 0, "ch", [0, 1]⟩ rfl (by decide)
    "m2" "ch" "t" 500
    ⟨fun _ => none, fun _ => false, 0⟩ "g" rfl
    ⟨fun _ => none, fun _ => false, 0⟩ 5 rfl
  exact ⟨h.1 0 (by decide), h.2.2.2.2.2.1 [BotOp.fire 1, BotOp.schedule "g" []] 1 (by decide),
    h.2.2.2.2.2.2.2⟩

theorem splitNl_single (text : JsStr) (h : text.contains '\n' = false) :
    splitNl text = [text] := by
  have hmem : '\n' ∉ text := by simpa using h
  clear h
  induction text with
  | nil => rfl
  | cons c rest ih =>
    have hc : ¬(c = '\n') := by
      intro he
      subst he
      exact hmem (List.mem_cons_self _ _)
    have hrest : '\n' ∉ rest := fun hr => hmem (List.mem_cons_of_mem _ hr)
    unfold splitNl
    rw [ih hrest]
    simp [hc]

theorem intercalate_single (sep x : JsStr) : List.intercalate sep [x] = x := by
  simp [List.intercalate]

/-- C7 (as amended): a captured single-line comment text of length 250 that
    is not a URL is rendered for display as its first 197 characters plus
    the three-character ellipsis (200 characters of comment text in total),
    while the record persisted at capture time retains all 250 characters
    untruncated; and a comment consisting of a single URL line of length
    250 is displayed without any truncation. -/
theorem c7_truncation_and_storage
    (user text url : JsStr)
    (sessions : String → Option Session) (gid : String) (sess : Session)
    (uid un tag : String) (now : Int)
    (h250 : text.length = 250)
    (hurl : startsWithUrl text = false)
    (hnl : text.contains '\n' = false)
    (htrim : trimChars text = text)
    (hhash : (['#'].isPrefixOf text) = false)
    (hsess : sessions gid = some sess)
    (hu : "https://".toList.isPrefixOf url = true)
    (hulen : url.length = 250)
    (hunl : url.contains '\n' = false) :
    renderCommentMessage user text =
      "💬 **".toList ++ user ++ ":**".toList ++ [' '] ++ (text.take 197 ++ ellipsis) ∧
    (text.take 197 ++ ellipsis).length = 200 ∧
    handlePotentialReply sessions
      { authorBot := false, authorId := uid, authorUsername := un, authorTag := tag,
        content := text, referenceMessageId := some sess.messageId, guildId := some gid,
        attachmentUrls := [], stickerUrls := [] } now =
      (true, some { videoUrl := sess.trackUrl, guildId := gid, userId := uid,
                    userName := if un != "" then un else tag,
                    commentText := text, timestampMs := now - sess.startTime }) ∧
    renderCommentMessage user url =
      "💬 **".toList ++ user ++ ":**".toList ++ ['\n'] ++ url := by
  have hne : text ≠ [] := by
    intro he
    rw [he] at h250
    simp at h250
  refine ⟨?_, ?_, ?_, ?_⟩
  · have htrimne : (trimChars text).isEmpty = false := by
      rw [htrim]
      simpa using hne
    unfold renderCommentMessage
    rw [splitNl_single text hnl]
    simp only [List.filter, hurl, htrimne, Bool.not_false, Bool.and_self]
    rw [intercalate_single]
    have htr : truncateText text MAX_COMMENT_LENGTH = text.take 197 ++ ellipsis := by
      unfold truncateText
      rw [hurl, hnl]
      simp only [Bool.false_eq_true, if_false]
      rw [if_neg (by rw [h250]; unfold MAX_COMMENT_LENGTH; omega)]
      rfl
    rw [htr]
    simp
  · have : (text.take 197).length = 197 := by
      rw [List.length_take, h250]
      decide
    simp [this, ellipsis]
  · unfold handlePotentialReply
    simp only [hhash, hsess]
    rw [if_neg (by simp)]
    simp [appendUrls, htrim, hne]
  · have hsw : startsWithUrl url = true := by
      unfold startsWithUrl
      rw [hu]
      simp
    unfold renderCommentMessage
    rw [splitNl_single url hunl]
    simp only [List.filter, hsw, Bool.not_true, Bool.false_and]
    rw [intercalate_single]
    simp

set_option maxRecDepth 4000 in
/-- Counterexample to C7 as stated: a capturable (trim-invariant)
    comment text of length 250 that contains no URL — 50 letters, 199
    newlines, one letter — is rendered from its space-joined non-empty
    lines, which total 52 characters, so the display is not the first 197
    characters of the text followed by an ellipsis; no truncation happens
    at all. -/
theorem c7_truncation_counterexample :
    ((List.replicate 50 'a' ++ List.replicate 199 '\n' ++ ['a']).length = 250) ∧
    startsWithUrl (List.replicate 50 'a' ++ List.replicate 199 '\n' ++ ['a']) = false ∧
    trimChars (List.replicate 50 'a' ++ List.replicate 199 '\n' ++ ['a'])
      = List.replicate 50 'a' ++ List.replicate 199 '\n' ++ ['a'] ∧
    (∀ line ∈ splitNl (List.replicate 50 'a' ++ List.replicate 199 '\n' ++ ['a']),
      startsWithUrl line = false) ∧
    renderCommentMessage ['u'] (List.replicate 50 'a' ++ List.replicate 199 '\n' ++ ['a'])
      = "💬 **u:** ".toList ++ (List.replicate 50 'a' ++ [' ', 'a']) ∧
    renderCommentMessage ['u'] (List.replicate 50 'a' ++ List.replicate 199 '\n' ++ ['a'])
      ≠ "💬 **u:** ".toList ++
        ((List.replicate 50 'a' ++ List.replicate 199 '\n' ++ ['a']).take 197 ++ ellipsis) := by
  decide

set_option maxRecDepth 4000 in
/-- Witness for C7 at a concrete 250-letter comment and a concrete
    250-character URL. -/
theorem c7_truncation_and_storage_witness :
    renderCommentMessage ['u'] (List.replicate 250 'a') =
      "💬 **".toList ++ ['u'] ++ ":**".toList ++ [' '] ++
        ((List.replicate 250 'a').take 197 ++ ellipsis) ∧
    ((List.replicate 250 'a').take 197 ++ ellipsis).length = 200 ∧
    renderCommentMessage ['u'] ("https://".toList ++ List.replicate 242 'b') =
      "💬 **".toList ++ ['u'] ++ ":**".toList ++ ['\n'] ++
        ("https://".toList ++ List.replicate 242 'b') := by
  have h := c7_truncation_and_storage ['u'] (List.replicate 250 'a')
    ("https://".toList ++ List.replicate 242 'b')
    (fun _ => some ⟨"m1", "t", 0, "ch", []⟩) "G" ⟨"m1", "t", 0, "ch", []⟩
    "uid" "un" "tag" 3000
    (by simp) (by decide) (by decide) (by decide) (by decide) rfl
    (by decide) (by decide) (by decide)
  exact ⟨h.1, h.2.1, h.2.2.2⟩
